import Mathlib

/-!
Verification of `samples/05-Models/src/CameraController.cpp` (free-look camera
controller). Float arithmetic is modelled over `ℝ`. The external collaborators
(DirectXMath quaternion construction, the `Camera` transform object and the
gainput input maps) are not part of the source slice; they are modelled from
the specification as abstract state, recording exactly the arguments the
controller passes to them.
-/

namespace CameraCtrl

/-- Modelled from the spec: a homogeneous 4-component vector, used for the
camera's absolute translation point (the camera transform storage itself is
an external collaborator). -/
structure Vec4 where
  x : ℝ
  y : ℝ
  z : ℝ
  w : ℝ

/-- Modelled from the spec: a 3-component vector, the argument of the camera's
incremental-translate operation. -/
structure Vec3 where
  x : ℝ
  y : ℝ
  z : ℝ

/-- Modelled from the spec: the external DirectXMath primitive
`XMQuaternionRotationRollPitchYaw` builds the camera's absolute rotation
quaternion from pitch/yaw/roll angles in radians. Its numeric quaternion
components are out of scope (external math library); it is modelled
abstractly by the triple of angles handed to it, which determines the
quaternion. -/
structure RollPitchYawQuat where
  pitch : ℝ
  yaw : ℝ
  roll : ℝ

/-- Embedding of the call `XMQuaternionRotationRollPitchYaw(pitch, yaw, roll)`. -/
def XMQuaternionRotationRollPitchYaw (pitch yaw roll : ℝ) : RollPitchYawQuat :=
  ⟨pitch, yaw, roll⟩

/-- Embedding of `XMConvertToRadians`: degrees to radians. -/
noncomputable def XMConvertToRadians (degrees : ℝ) : ℝ :=
  degrees * (Real.pi / 180)

/-- Modelled from the spec: the external `Camera` object holds an absolute
rotation (quaternion) and an absolute translation (point), and exposes an
incremental translate; the incremental calls are recorded as a list since
their local-frame application happens inside the external camera. -/
structure Camera where
  m_Rotation : RollPitchYawQuat
  m_Translation : Vec4
  m_TranslateCalls : List Vec3

/-- Embedding of `Camera::set_Rotation`. -/
def Camera.set_Rotation (cam : Camera) (q : RollPitchYawQuat) : Camera :=
  { cam with m_Rotation := q }

/-- Embedding of `Camera::set_Translation`. -/
def Camera.set_Translation (cam : Camera) (t : Vec4) : Camera :=
  { cam with m_Translation := t }

/-- Embedding of `Camera::Translate` (incremental translate; the vector is
recorded, its local-frame application being external). -/
def Camera.Translate (cam : Camera) (v : Vec3) : Camera :=
  { cam with m_TranslateCalls := v :: cam.m_TranslateCalls }

/-- Embedding of `Lerp` (CameraController.cpp line 10): linear interpolation. -/
noncomputable def Lerp (x0 x1 a : ℝ) : ℝ :=
  x0 + a * (x1 - x0)

/-- Embedding of `Smooth` (CameraController.cpp line 16). The C++ takes both
arguments by reference and writes the blended value back into both; the pure
embedding returns the pair (new x0, new x1). -/
noncomputable def Smooth (x0 x1 deltaTime : ℝ) : ℝ × ℝ :=
  let x :=
    if |x0| < |x1| then  -- Speeding up
      Lerp x1 x0 ((0.6 : ℝ) ^ (deltaTime * 60.0))
    else  -- Slowing down
      Lerp x1 x0 ((0.8 : ℝ) ^ (deltaTime * 60.0))
  (x, x)

/-- Per-frame snapshot of the values the two input maps report inside
`CameraController::Update`: `GetFloat`/`GetBool` on each logical channel used,
and `GetFloatDelta` for the mouse Pitch/Yaw axes. -/
structure InputState where
  kmMoveX : ℝ
  kmMoveY : ℝ
  kmMoveZ : ℝ
  padMoveX : ℝ
  padMoveY : ℝ
  padMoveZ : ℝ
  padPitch : ℝ
  padYaw : ℝ
  kmBoost : Bool
  padBoost : Bool
  kmLMB : Bool
  kmPitchDelta : ℝ
  kmYawDelta : ℝ

/-- Embedding of `UpdateEventArgs` (only `DeltaTime` is read). -/
structure UpdateEventArgs where
  DeltaTime : ℝ

/-- The controller's own state (CameraController.h fields used by the
source slice), together with the camera it mutates. -/
structure CameraController where
  m_X : ℝ
  m_Y : ℝ
  m_Z : ℝ
  m_Pitch : ℝ
  m_Yaw : ℝ
  m_PreviousPitch : ℝ
  m_PreviousYaw : ℝ
  m_InverseY : Bool
  m_Camera : Camera

/-- Embedding of `std::clamp(v, lo, hi)`. -/
noncomputable def stdClamp (v lo hi : ℝ) : ℝ :=
  if v < lo then lo else if hi < v then hi else v

/-- Boost test at Update lines 111-112: `m_PadInput->GetBool(Boost) || m_KMInput->GetBool(Boost)`. -/
def boostHeld (i : InputState) : Bool :=
  i.padBoost || i.kmBoost

/-- `speedScale` (Update line 111). -/
noncomputable def speedScale (i : InputState) : ℝ :=
  if boostHeld i then 1.0 else 0.1

/-- `rotationScale` (Update line 112). -/
noncomputable def rotationScale (i : InputState) : ℝ :=
  if boostHeld i then 1.0 else 0.5

/-- Raw translation delta `X` (Update line 114); `MOVE_SPEED = 10.0`. -/
noncomputable def rawMoveX (i : InputState) (dt : ℝ) : ℝ :=
  (i.kmMoveX + i.padMoveX) * 10.0 * speedScale i * dt

/-- Raw translation delta `Y` (Update line 115). -/
noncomputable def rawMoveY (i : InputState) (dt : ℝ) : ℝ :=
  (i.kmMoveY + i.padMoveY) * 10.0 * speedScale i * dt

/-- Raw translation delta `Z` (Update line 116). -/
noncomputable def rawMoveZ (i : InputState) (dt : ℝ) : ℝ :=
  (i.kmMoveZ + i.padMoveZ) * 10.0 * speedScale i * dt

/-- Raw `pitch` delta (Update line 117); `LOOK_SENSITIVITY = 180.0`, gamepad only. -/
noncomputable def rawPitch (i : InputState) (dt : ℝ) : ℝ :=
  i.padPitch * 180.0 * rotationScale i * dt

/-- Raw `yaw` delta (Update line 118); gamepad only. -/
noncomputable def rawYaw (i : InputState) (dt : ℝ) : ℝ :=
  i.padYaw * 180.0 * rotationScale i * dt

/-- Value of the local `pitch` after smoothing (line 124) and the unsmoothed
mouse contribution under LMB (lines 128-131); `MOUSE_SENSITIVITY = 0.1`. -/
noncomputable def pitchAfterMouse (c : CameraController) (i : InputState) (dt : ℝ) : ℝ :=
  let p := (Smooth c.m_PreviousPitch (rawPitch i dt) dt).2
  if i.kmLMB then p - i.kmPitchDelta * 0.1 * rotationScale i else p

/-- Value of the local `yaw` after smoothing (line 125) and the unsmoothed
mouse contribution under LMB (lines 128-131). -/
noncomputable def yawAfterMouse (c : CameraController) (i : InputState) (dt : ℝ) : ℝ :=
  let y := (Smooth c.m_PreviousYaw (rawYaw i dt) dt).2
  if i.kmLMB then y - i.kmYawDelta * 0.1 * rotationScale i else y

/-- `m_Pitch` just after line 134, before the clamp at line 136. -/
noncomputable def preClampPitch (c : CameraController) (i : InputState) (dt : ℝ) : ℝ :=
  c.m_Pitch + pitchAfterMouse c i dt * (if c.m_InverseY then 1.0 else -1.0)

/-- Embedding of `CameraController::Update` (lines 105-148). -/
noncomputable def CameraController.Update (c : CameraController) (i : InputState)
    (e : UpdateEventArgs) : CameraController :=
  let dt := e.DeltaTime
  let X := Smooth c.m_X (rawMoveX i dt) dt
  let Y := Smooth c.m_Y (rawMoveY i dt) dt
  let Z := Smooth c.m_Z (rawMoveZ i dt) dt
  let pp := Smooth c.m_PreviousPitch (rawPitch i dt) dt
  let py := Smooth c.m_PreviousYaw (rawYaw i dt) dt
  let newPitch := stdClamp (preClampPitch c i dt) (-90.0) 90.0
  let newYaw := c.m_Yaw + yawAfterMouse c i dt
  let cam1 := c.m_Camera.Translate ⟨X.2, Y.2, Z.2⟩
  let cam2 := cam1.set_Rotation
    (XMQuaternionRotationRollPitchYaw (XMConvertToRadians newPitch) (XMConvertToRadians newYaw) 0.0)
  { m_X := X.1
    m_Y := Y.1
    m_Z := Z.1
    m_Pitch := newPitch
    m_Yaw := newYaw
    m_PreviousPitch := pp.1
    m_PreviousYaw := py.1
    m_InverseY := c.m_InverseY
    m_Camera := cam2 }

/-- Embedding of `CameraController::ResetView` (lines 91-103). -/
noncomputable def CameraController.ResetView (c : CameraController) : CameraController :=
  let pitch : ℝ := 0.0
  let yaw : ℝ := 90.0
  let rot := XMQuaternionRotationRollPitchYaw (XMConvertToRadians pitch) (XMConvertToRadians yaw) 0.0
  { c with
    m_X := 0.0
    m_Y := 0.0
    m_Z := 0.0
    m_PreviousPitch := 0.0
    m_PreviousYaw := 0.0
    m_Pitch := pitch
    m_Yaw := yaw
    m_Camera := (c.m_Camera.set_Rotation rot).set_Translation ⟨0, 1.5, 0.25, 1⟩ }

/-- A sequence of frames: `Update` applied left to right. -/
noncomputable def runUpdates (c : CameraController)
    (frames : List (InputState × UpdateEventArgs)) : CameraController :=
  frames.foldl (fun s f => s.Update f.1 f.2) c

/-- C2: the smoothing filter computes `result = target + a * (prev - target)`
with blend factor `a = 0.6 ^ (dt * 60)` when `|prev| < |target|` and
`a = 0.8 ^ (dt * 60)` otherwise, and both returned cells (the stored prior
and the written-back target) equal this result. -/
theorem smooth_formula (prev target dt : ℝ) :
    (Smooth prev target dt).1 =
      target +
        (if |prev| < |target| then (0.6 : ℝ) ^ (dt * 60.0) else (0.8 : ℝ) ^ (dt * 60.0)) *
          (prev - target) ∧
    (Smooth prev target dt).2 =
      target +
        (if |prev| < |target| then (0.6 : ℝ) ^ (dt * 60.0) else (0.8 : ℝ) ^ (dt * 60.0)) *
          (prev - target) := by
  unfold Smooth Lerp
  constructor <;> · split <;> simp

/-- Helper: a lerp from `x1` toward `x0` with a blend factor in `[0, 1]` stays
between `x0` and `x1`. -/
theorem lerp_mem_between (x0 x1 a : ℝ) (h0 : 0 ≤ a) (h1 : a ≤ 1) :
    min x0 x1 ≤ Lerp x1 x0 a ∧ Lerp x1 x0 a ≤ max x0 x1 := by
  unfold Lerp
  constructor
  · rcases le_total x0 x1 with hle | hle
    · rw [min_eq_left hle]
      nlinarith [mul_nonneg (by linarith : (0:ℝ) ≤ 1 - a) (by linarith : (0:ℝ) ≤ x1 - x0)]
    · rw [min_eq_right hle]
      nlinarith [mul_nonneg h0 (by linarith : (0:ℝ) ≤ x0 - x1)]
  · rcases le_total x0 x1 with hle | hle
    · rw [max_eq_right hle]
      nlinarith [mul_nonneg h0 (by linarith : (0:ℝ) ≤ x1 - x0)]
    · rw [max_eq_left hle]
      nlinarith [mul_nonneg (by linarith : (0:ℝ) ≤ 1 - a) (by linarith : (0:ℝ) ≤ x0 - x1)]

/-- Helper: for a base `b ∈ (0, 1]` and `0 ≤ dt`, the blend factor
`b ^ (dt * 60)` lies in `[0, 1]`. -/
theorem blend_factor_mem (b dt : ℝ) (hb0 : 0 < b) (hb1 : b ≤ 1) (h : 0 ≤ dt) :
    0 ≤ b ^ (dt * 60.0) ∧ b ^ (dt * 60.0) ≤ 1 :=
  ⟨(Real.rpow_pos_of_pos hb0 _).le,
   Real.rpow_le_one hb0.le hb1 (by nlinarith)⟩

/-- C3: for every `dt ≥ 0`, the smoothing result lies between `prev` and
`target` inclusive, and for `dt = 0` it equals `prev` exactly. -/
theorem smooth_between (prev target dt : ℝ) (h : 0 ≤ dt) :
    (min prev target ≤ (Smooth prev target dt).1 ∧
       (Smooth prev target dt).1 ≤ max prev target) ∧
    (dt = 0 → (Smooth prev target dt).1 = prev) := by
  constructor
  · unfold Smooth
    split
    · exact lerp_mem_between prev target _ (blend_factor_mem 0.6 dt (by norm_num) (by norm_num) h).1
        (blend_factor_mem 0.6 dt (by norm_num) (by norm_num) h).2
    · exact lerp_mem_between prev target _ (blend_factor_mem 0.8 dt (by norm_num) (by norm_num) h).1
        (blend_factor_mem 0.8 dt (by norm_num) (by norm_num) h).2
  · intro h0
    subst h0
    unfold Smooth Lerp
    split <;> · rw [zero_mul, Real.rpow_zero]; ring

/-- C3 witness at `prev = 1`, `target = 2`, `dt = 0`. -/
theorem smooth_between_witness :
    (0 : ℝ) ≤ 0 ∧
    ((min (1 : ℝ) 2 ≤ (Smooth 1 2 0).1 ∧ (Smooth 1 2 0).1 ≤ max (1 : ℝ) 2) ∧
     ((0 : ℝ) = 0 → (Smooth 1 2 0).1 = 1)) :=
  ⟨le_refl 0, smooth_between 1 2 0 (le_refl 0)⟩

/-- Helper: `std::clamp` lands in `[lo, hi]` whenever `lo ≤ hi`. -/
theorem stdClamp_mem (v lo hi : ℝ) (h : lo ≤ hi) :
    lo ≤ stdClamp v lo hi ∧ stdClamp v lo hi ≤ hi := by
  unfold stdClamp
  split_ifs <;> constructor <;> linarith

/-- Helper: one `Update` call leaves `m_Pitch` in `[-90, 90]`. -/
theorem update_pitch_step (c : CameraController) (i : InputState) (e : UpdateEventArgs) :
    -90 ≤ (c.Update i e).m_Pitch ∧ (c.Update i e).m_Pitch ≤ 90 := by
  have h := stdClamp_mem (preClampPitch c i e.DeltaTime) (-90.0) 90.0 (by norm_num)
  simp only [CameraController.Update]
  constructor <;> [linarith [h.1]; linarith [h.2]]

/-- C1: after any nonempty sequence of `Update` calls from any controller
state (in particular right after construction or `ResetView`), with arbitrary
inputs and delta times each frame, the stored absolute pitch lies in
`[-90, 90]` degrees. -/
theorem pitch_in_range_after_updates (c : CameraController)
    (frames : List (InputState × UpdateEventArgs)) (h : frames ≠ []) :
    -90 ≤ (runUpdates c frames).m_Pitch ∧ (runUpdates c frames).m_Pitch ≤ 90 := by
  induction frames generalizing c with
  | nil => exact absurd rfl h
  | cons f fs ih =>
    rw [runUpdates, List.foldl_cons]
    cases fs with
    | nil => simpa [runUpdates] using update_pitch_step c f.1 f.2
    | cons g gs =>
      have := ih (c.Update f.1 f.2) (by simp)
      simpa [runUpdates] using this

/-- Concrete camera for witnesses. -/
noncomputable def camera0 : Camera := ⟨⟨0, 0, 0⟩, ⟨0, 0, 0, 0⟩, []⟩

/-- Concrete controller state for witnesses. -/
noncomputable def ctrl0 : CameraController := ⟨0, 0, 0, 0, 0, 0, 0, true, camera0⟩

/-- Concrete neutral input snapshot for witnesses. -/
noncomputable def input0 : InputState := ⟨0, 0, 0, 0, 0, 0, 0, 0, false, false, false, 0, 0⟩

/-- Concrete frame timing for witnesses. -/
noncomputable def args0 : UpdateEventArgs := ⟨0⟩

/-- C4: `ResetView` zeroes all five smoothing accumulators, sets pitch to 0
and yaw to 90 degrees, sets the camera rotation to the quaternion built from
(pitch 0, yaw 90, roll 0) converted to radians and the camera translation to
the point (0, 1.5, 0.25); it takes no inputs (by its type) and leaves the
inversion flag and the camera's incremental-translate history unchanged. -/
theorem resetView_spec (c : CameraController) :
    (c.ResetView).m_X = 0 ∧ (c.ResetView).m_Y = 0 ∧ (c.ResetView).m_Z = 0 ∧
    (c.ResetView).m_PreviousPitch = 0 ∧ (c.ResetView).m_PreviousYaw = 0 ∧
    (c.ResetView).m_Pitch = 0 ∧ (c.ResetView).m_Yaw = 90 ∧
    (c.ResetView).m_Camera.m_Rotation =
      XMQuaternionRotationRollPitchYaw (XMConvertToRadians 0) (XMConvertToRadians 90) 0 ∧
    (c.ResetView).m_Camera.m_Translation = ⟨0, 1.5, 0.25, 1⟩ ∧
    (c.ResetView).m_InverseY = c.m_InverseY ∧
    (c.ResetView).m_Camera.m_TranslateCalls = c.m_Camera.m_TranslateCalls := by
  unfold CameraController.ResetView Camera.set_Rotation Camera.set_Translation
  simp only [XMQuaternionRotationRollPitchYaw, XMConvertToRadians,
    RollPitchYawQuat.mk.injEq, Vec4.mk.injEq]
  norm_num

/-- C5: the raw per-axis translation deltas are
`(km value + pad value) * 10.0 * speedScale * deltaTime` and the raw pitch/yaw
deltas are `pad value * 180.0 * rotationScale * deltaTime`, where the scales
are `(1.0, 1.0)` when Boost is held in either input context and `(0.1, 0.5)`
otherwise; observed through the stored smoothing accumulators after `Update`. -/
theorem update_raw_deltas (c : CameraController) (i : InputState) (e : UpdateEventArgs) :
    (c.Update i e).m_X =
      (Smooth c.m_X ((i.kmMoveX + i.padMoveX) * 10.0 *
        (if i.padBoost || i.kmBoost then (1.0 : ℝ) else 0.1) * e.DeltaTime) e.DeltaTime).1 ∧
    (c.Update i e).m_Y =
      (Smooth c.m_Y ((i.kmMoveY + i.padMoveY) * 10.0 *
        (if i.padBoost || i.kmBoost then (1.0 : ℝ) else 0.1) * e.DeltaTime) e.DeltaTime).1 ∧
    (c.Update i e).m_Z =
      (Smooth c.m_Z ((i.kmMoveZ + i.padMoveZ) * 10.0 *
        (if i.padBoost || i.kmBoost then (1.0 : ℝ) else 0.1) * e.DeltaTime) e.DeltaTime).1 ∧
    (c.Update i e).m_PreviousPitch =
      (Smooth c.m_PreviousPitch (i.padPitch * 180.0 *
        (if i.padBoost || i.kmBoost then (1.0 : ℝ) else 0.5) * e.DeltaTime) e.DeltaTime).1 ∧
    (c.Update i e).m_PreviousYaw =
      (Smooth c.m_PreviousYaw (i.padYaw * 180.0 *
        (if i.padBoost || i.kmBoost then (1.0 : ℝ) else 0.5) * e.DeltaTime) e.DeltaTime).1 := by
  simp only [CameraController.Update, rawMoveX, rawMoveY, rawMoveZ, rawPitch, rawYaw,
    speedScale, rotationScale, boostHeld]
  exact ⟨trivial, trivial, trivial, trivial, trivial⟩

/-- C6: when the left mouse button is held, `pitchDelta * 0.1 * rotationScale`
is subtracted from the smoothed pitch delta and `yawDelta * 0.1 *
rotationScale` from the smoothed yaw delta before accumulation into the
absolute angles; when it is not held, no such contribution is applied. -/
theorem update_mouse_contribution (c : CameraController) (i : InputState)
    (e : UpdateEventArgs) :
    (c.Update i e).m_Pitch =
      stdClamp (c.m_Pitch +
        ((Smooth c.m_PreviousPitch (rawPitch i e.DeltaTime) e.DeltaTime).2 -
          (if i.kmLMB then i.kmPitchDelta * 0.1 * rotationScale i else 0)) *
        (if c.m_InverseY then (1.0 : ℝ) else -1.0)) (-90.0) 90.0 ∧
    (c.Update i e).m_Yaw =
      c.m_Yaw + ((Smooth c.m_PreviousYaw (rawYaw i e.DeltaTime) e.DeltaTime).2 -
        (if i.kmLMB then i.kmYawDelta * 0.1 * rotationScale i else 0)) := by
  cases hL : i.kmLMB <;>
    simp [CameraController.Update, pitchAfterMouse, yawAfterMouse, preClampPitch, hL]

/-- C7: flipping the axis-inversion flag (state otherwise identical, same
inputs and delta time) negates the pre-clamp change applied to the absolute
pitch — the smoothed pitch delta is accumulated with factor `+1` when the
flag is set and `-1` otherwise — while the absolute yaw receives the smoothed
yaw delta identically in both runs, with no inversion and no clamp. -/
theorem inversion_flips_pitch (c : CameraController) (i : InputState) (e : UpdateEventArgs) :
    (c.Update i e).m_Pitch = stdClamp (preClampPitch c i e.DeltaTime) (-90.0) 90.0 ∧
    preClampPitch { c with m_InverseY := !c.m_InverseY } i e.DeltaTime -
        ({ c with m_InverseY := !c.m_InverseY } : CameraController).m_Pitch =
      -(preClampPitch c i e.DeltaTime - c.m_Pitch) ∧
    (({ c with m_InverseY := !c.m_InverseY } : CameraController).Update i e).m_Yaw -
        ({ c with m_InverseY := !c.m_InverseY } : CameraController).m_Yaw =
      (c.Update i e).m_Yaw - c.m_Yaw := by
  refine ⟨rfl, ?_, ?_⟩
  · cases hb : c.m_InverseY <;> simp [preClampPitch, pitchAfterMouse, hb]
  · simp [CameraController.Update, yawAfterMouse]

/-- C8: every `Update` passes exactly the smoothed (post-filter) translation
vector to the camera's incremental translate — the same values stored in the
accumulators — and sets the camera's absolute rotation to the quaternion
freshly rebuilt from the new absolute (pitch, yaw, 0) in radians; the
resulting rotation does not depend on the camera's previous rotation. -/
theorem update_camera_transform (c : CameraController) (i : InputState)
    (e : UpdateEventArgs) :
    (c.Update i e).m_Camera.m_TranslateCalls =
      (⟨(c.Update i e).m_X, (c.Update i e).m_Y, (c.Update i e).m_Z⟩ : Vec3) ::
        c.m_Camera.m_TranslateCalls ∧
    (c.Update i e).m_Camera.m_Rotation =
      XMQuaternionRotationRollPitchYaw (XMConvertToRadians (c.Update i e).m_Pitch)
        (XMConvertToRadians (c.Update i e).m_Yaw) 0.0 ∧
    (∀ q : RollPitchYawQuat,
      (({ c with m_Camera := { c.m_Camera with m_Rotation := q } } : CameraController).Update
          i e).m_Camera.m_Rotation = (c.Update i e).m_Camera.m_Rotation) := by
  refine ⟨rfl, rfl, fun q => ?_⟩
  simp [CameraController.Update, Camera.Translate, Camera.set_Rotation, preClampPitch,
    pitchAfterMouse, yawAfterMouse]

/-- C9: the five smoothing accumulators after `Update` are independent of the
left-mouse-button state and of the Pitch/Yaw axis deltas: two runs from the
same state agreeing on all axis values and Boost flags (but with arbitrary
LMB and delta values) store identical accumulators. -/
theorem accumulators_independent_of_mouse (c : CameraController) (i j : InputState)
    (e : UpdateEventArgs)
    (h1 : i.kmMoveX = j.kmMoveX) (h2 : i.kmMoveY = j.kmMoveY) (h3 : i.kmMoveZ = j.kmMoveZ)
    (h4 : i.padMoveX = j.padMoveX) (h5 : i.padMoveY = j.padMoveY) (h6 : i.padMoveZ = j.padMoveZ)
    (h7 : i.padPitch = j.padPitch) (h8 : i.padYaw = j.padYaw)
    (h9 : i.kmBoost = j.kmBoost) (h10 : i.padBoost = j.padBoost) :
    (c.Update i e).m_X = (c.Update j e).m_X ∧
    (c.Update i e).m_Y = (c.Update j e).m_Y ∧
    (c.Update i e).m_Z = (c.Update j e).m_Z ∧
    (c.Update i e).m_PreviousPitch = (c.Update j e).m_PreviousPitch ∧
    (c.Update i e).m_PreviousYaw = (c.Update j e).m_PreviousYaw := by
  simp only [CameraController.Update, rawMoveX, rawMoveY, rawMoveZ, rawPitch, rawYaw,
    speedScale, rotationScale, boostHeld, h1, h2, h3, h4, h5, h6, h7, h8, h9, h10]
  exact ⟨trivial, trivial, trivial, trivial, trivial⟩

/-- C10: under LMB, the pre-clamp change to the absolute pitch equals
`s * (smoothedPitchDelta - pitchAxisDelta * 0.1 * rotationScale)` with
`s = +1` when the inversion flag is set and `-1` otherwise, so the mouse
contribution is inverted together with the smoothed delta (added to the
absolute pitch when the flag is clear). -/
theorem lmb_pitch_sign (c : CameraController) (i : InputState) (e : UpdateEventArgs)
    (h : i.kmLMB = true) :
    preClampPitch c i e.DeltaTime - c.m_Pitch =
      (if c.m_InverseY then (1 : ℝ) else -1) *
        ((Smooth c.m_PreviousPitch (rawPitch i e.DeltaTime) e.DeltaTime).2 -
          i.kmPitchDelta * 0.1 * rotationScale i) := by
  cases hb : c.m_InverseY <;> simp [preClampPitch, pitchAfterMouse, h, hb] <;> ring

/-- Concrete input snapshot with the left mouse button held and nonzero
mouse deltas, for witnesses. -/
noncomputable def input1 : InputState := ⟨0, 0, 0, 0, 0, 0, 0, 0, false, false, true, 5, 7⟩

/-- C9 witness: neutral axes, runs differing in LMB and mouse deltas. -/
theorem accumulators_independent_witness :
    (input0.kmMoveX = input1.kmMoveX ∧ input0.kmMoveY = input1.kmMoveY ∧
     input0.kmMoveZ = input1.kmMoveZ ∧ input0.padMoveX = input1.padMoveX ∧
     input0.padMoveY = input1.padMoveY ∧ input0.padMoveZ = input1.padMoveZ ∧
     input0.padPitch = input1.padPitch ∧ input0.padYaw = input1.padYaw ∧
     input0.kmBoost = input1.kmBoost ∧ input0.padBoost = input1.padBoost) ∧
    ((ctrl0.Update input0 args0).m_X = (ctrl0.Update input1 args0).m_X ∧
     (ctrl0.Update input0 args0).m_Y = (ctrl0.Update input1 args0).m_Y ∧
     (ctrl0.Update input0 args0).m_Z = (ctrl0.Update input1 args0).m_Z ∧
     (ctrl0.Update input0 args0).m_PreviousPitch = (ctrl0.Update input1 args0).m_PreviousPitch ∧
     (ctrl0.Update input0 args0).m_PreviousYaw = (ctrl0.Update input1 args0).m_PreviousYaw) :=
  ⟨⟨rfl, rfl, rfl, rfl, rfl, rfl, rfl, rfl, rfl, rfl⟩,
   accumulators_independent_of_mouse ctrl0 input0 input1 args0
     rfl rfl rfl rfl rfl rfl rfl rfl rfl rfl⟩

/-- C10 witness with the left mouse button held. -/
theorem lmb_pitch_sign_witness :
    input1.kmLMB = true ∧
    preClampPitch ctrl0 input1 args0.DeltaTime - ctrl0.m_Pitch =
      (if ctrl0.m_InverseY then (1 : ℝ) else -1) *
        ((Smooth ctrl0.m_PreviousPitch (rawPitch input1 args0.DeltaTime) args0.DeltaTime).2 -
          input1.kmPitchDelta * 0.1 * rotationScale input1) :=
  ⟨rfl, lmb_pitch_sign ctrl0 input1 args0 rfl⟩

/-- C1 witness at one frame of neutral input. -/
theorem pitch_in_range_witness :
    ([(input0, args0)] : List (InputState × UpdateEventArgs)) ≠ [] ∧
    (-90 ≤ (runUpdates ctrl0 [(input0, args0)]).m_Pitch ∧
       (runUpdates ctrl0 [(input0, args0)]).m_Pitch ≤ 90) :=
  ⟨List.cons_ne_nil _ _,
   pitch_in_range_after_updates ctrl0 [(input0, args0)] (List.cons_ne_nil _ _)⟩

end CameraCtrl
